import Mathlib

/-!
Shallow embedding of the core of `src/app.ts` (a drag-and-drop project
tracker) and verification of its specification claims.

The TypeScript classes are embedded as follows:
* `ProjectStatus` — the two-member enum (`active` / `finished`).
* `Project` — the `Project` class: the constructor stores `id`, `title`,
  `description`, `people` and sets `status = ProjectStatus.Active`.
* `ProjectState` — the registry (`ProjectState extends State<Project>`):
  a listener list and a project list.  Listeners are abstract tokens of a
  type parameter `L`; the notification pass is modelled as the list of
  invocation events `(listener, snapshot)` it performs, in order.
* In-place mutation (`found.status = newStatus`) becomes explicit state
  passing; the non-null assertion in `moveProject` becomes `Option`
  (`none` = the lookup failed and the method dies with a `TypeError`).
-/

/-- The `ProjectStatus` enum of `app.ts`, whose members are `Active`
(string value `active`) and `Finished` (string value `finished`). -/
inductive ProjectStatus where
  | active
  | finished
deriving DecidableEq, Repr

/-- The `Project` class of `app.ts`: the constructor takes `id`, `title`,
`description`, `people` and initialises `status` to `ProjectStatus.Active`.
`people` is a JS number; the claims only exercise integral values, so it is
embedded as `Int`. -/
structure Project where
  id : String
  title : String
  description : String
  people : Int
  status : ProjectStatus
deriving DecidableEq, Repr

/-- Builds a `Project` exactly as `new Project(id, title, description,
people)` does: `status` is set to `Active` by the constructor. -/
def Project.new (id title description : String) (people : Int) : Project :=
  { id := id, title := title, description := description,
    people := people, status := ProjectStatus.active }

/-- The state held by `ProjectState extends State<Project>`: the inherited
`listeners` array and the private `projects` array.  `L` is the type of
listener tokens. -/
structure ProjectState (L : Type) where
  listeners : List L
  projects : List Project
deriving Repr

/-- A freshly constructed registry (`new ProjectState()`): both arrays start
empty. -/
def ProjectState.empty {L : Type} : ProjectState L :=
  { listeners := [], projects := [] }

/-- Embeds `State.addListener`: `this.listeners.push(fn)` appends the
listener at the end of the array. -/
def ProjectState.addListener {L : Type} (s : ProjectState L) (fn : L) :
    ProjectState L :=
  { s with listeners := s.listeners ++ [fn] }

/-- Embeds `ProjectState.updateListeners`:
`this.listeners.forEach((fn) => fn([...this.projects]))`.  The fan-out is
modelled by the list of invocation events it performs, in array order: each
event pairs the listener with the snapshot (`[...this.projects]` is a copy,
which a Lean list value already is). -/
def ProjectState.updateListeners {L : Type} (s : ProjectState L) :
    List (L × List Project) :=
  s.listeners.map (fun fn => (fn, s.projects))

/-- Embeds `ProjectState.addProject(title, description, people)`.  The id
comes from `Math.random().toString()`; that external random draw is passed
in as `rid`.  The method constructs `new Project(rid, title, description,
people)`, pushes it onto `this.projects`, and runs `updateListeners`.  The
result is the new state, the notification events, and the value the method
returns: the TS method body has no `return` statement, so the call
evaluates to `undefined`, embedded as `none`. -/
def ProjectState.addProject {L : Type} (s : ProjectState L)
    (rid title description : String) (people : Int) :
    ProjectState L × List (L × List Project) × Option String :=
  let project := Project.new rid title description people
  let s1 : ProjectState L := { s with projects := s.projects ++ [project] }
  (s1, s1.updateListeners, none)

/-- The in-place effect of `found.status = newStatus` after
`this.projects.find(prj => prj.id === projectId)`: only the first array
element whose `id` matches is mutated, everything else is untouched. -/
def setStatusFirst : List Project → String → ProjectStatus → List Project
  | [], _, _ => []
  | p :: rest, projectId, newStatus =>
    if p.id = projectId then { p with status := newStatus } :: rest
    else p :: setStatusFirst rest projectId newStatus

/-- Embeds `ProjectState.moveProject(projectId, newStatus)`:
`const found = this.projects.find(prj => prj.id === projectId)!` followed by
`found.status = newStatus` and `this.updateListeners()`.  When no project
has the id, the non-null assertion is wrong and the assignment throws a
`TypeError` before any mutation or notification: embedded as `none`.
Otherwise the status of the first matching project is overwritten and the
notification pass runs on the new state. -/
def ProjectState.moveProject {L : Type} (s : ProjectState L)
    (projectId : String) (newStatus : ProjectStatus) :
    Option (ProjectState L × List (L × List Project)) :=
  match s.projects.find? (fun prj => prj.id = projectId) with
  | none => none
  | some _ =>
    let s1 : ProjectState L :=
      { s with projects := setStatusFirst s.projects projectId newStatus }
    some (s1, s1.updateListeners)

/-- One recorded `addProject` call: the value `Math.random().toString()`
produced during the call, and the three arguments. -/
structure AddCall where
  rid : String
  title : String
  description : String
  people : Int
deriving Repr

/-- Runs a sequence of `addProject` calls against a registry, threading the
state (notification events and return values are discarded). -/
def runAdds {L : Type} (s : ProjectState L) : List AddCall → ProjectState L
  | [] => s
  | c :: cs => runAdds (s.addProject c.rid c.title c.description c.people).1 cs

/-- The subscriber callback registered by `ProjectList.configure`:
`projects.filter(prj => prj.status === this.type)` becomes the value stored
in `this.assignedProjects`. -/
def configureListener (type : ProjectStatus) (projects : List Project) :
    List Project :=
  projects.filter (fun prj => prj.status = type)

/-- Modelled from the spec (the wording of claim C6): "the subsequence of
the snapshot consisting of items whose status equals the Listing status, in
the original insertion order of the snapshot", written as primitive
recursion over the snapshot. -/
def statusSubsequence (type : ProjectStatus) : List Project → List Project
  | [] => []
  | p :: rest =>
    if p.status = type then p :: statusSubsequence type rest
    else statusSubsequence type rest

/-- A platform `DataTransfer` object, reduced to what the handlers read: an
association of type tags to payload strings.  `types[0]` is the head of the
tag list; `getData(ty)` returns the stored string, or the empty string when
the tag is absent. -/
structure DataTransfer where
  entries : List (String × String)
deriving Repr

/-- Embeds `DataTransfer.getData(format)`: the data stored under the tag,
or the empty string when none is. -/
def DataTransfer.getData (dt : DataTransfer) (format : String) : String :=
  match dt.entries.find? (fun e => e.1 = format) with
  | none => ""
  | some e => e.2

/-- Embeds `ProjectList.dropHandler(event)`, reduced to the registry
interaction it performs: the guard
`if (event.dataTransfer && event.dataTransfer.getData(text-plain-tag))`
(a string is truthy iff nonempty) protects the single call
`projectState.moveProject(id, this.type === ProjectStatus.Active ?
ProjectStatus.Active : ProjectStatus.Finished)`.  The result is the
`moveProject` invocation performed, or `none` when the handler does
nothing to the registry. -/
def dropHandler (type : ProjectStatus) (dataTransfer : Option DataTransfer) :
    Option (String × ProjectStatus) :=
  match dataTransfer with
  | none => none
  | some dt =>
    if dt.getData "text/plain" ≠ "" then
      some (dt.getData "text/plain",
        if type = ProjectStatus.active then ProjectStatus.active
        else ProjectStatus.finished)
    else none

/-- The `persons` getter of `ProjectItem`: `n > 1` yields the template
string of `n` followed by ` persons`, anything else yields `1 person`. -/
def persons (people : Int) : String :=
  if people > 1 then toString people ++ " persons" else "1 person"

/-! ### Claims -/

/-- C9: for every positive `peopleCount`, the `persons` getter is
`"1 person"` when the count is exactly 1 and `"N persons"` otherwise. -/
theorem persons_singular_plural (n : Int) (h : 0 < n) :
    (n = 1 → persons n = "1 person") ∧
    (n ≠ 1 → persons n = toString n ++ " persons") := by
  constructor
  · intro h1
    simp [persons, h1]
  · intro h1
    have h2 : 1 < n := lt_of_le_of_ne h (fun e => h1 e.symm)
    simp [persons, h2]

theorem persons_singular_plural_witness :
    (persons 1 = "1 person") ∧ (persons 4 = "4 persons") :=
  ⟨(persons_singular_plural 1 (by decide)).1 rfl,
   (persons_singular_plural 4 (by decide)).2 (by decide)⟩

/-- C10: for every `peopleCount` at most 1 — including 0 and negative
values — the `persons` getter returns `"1 person"`. -/
theorem persons_at_most_one (n : Int) (h : n ≤ 1) :
    persons n = "1 person" := by
  have h1 : ¬ 1 < n := not_lt.mpr h
  simp [persons, h1]

theorem persons_at_most_one_witness :
    persons 0 = "1 person" ∧ persons (-3) = "1 person" :=
  ⟨persons_at_most_one 0 (by decide), persons_at_most_one (-3) (by decide)⟩

/-- C6: the list a Listing stores on notification is exactly the
status-matching subsequence of the snapshot, in snapshot order. -/
theorem configure_filter_correct (type : ProjectStatus)
    (projects : List Project) :
    configureListener type projects = statusSubsequence type projects := by
  induction projects with
  | nil => rfl
  | cons p rest ih =>
    by_cases h : p.status = type <;>
      simp [configureListener, statusSubsequence, h] at ih ⊢ <;>
      exact ih

/-- C7: a drop event with no payload, or whose payload does not carry the
`text/plain` tag, never reaches `moveProject`. -/
theorem drop_rejects_unrecognized (type : ProjectStatus)
    (dataTransfer : Option DataTransfer)
    (h : ∀ dt, dataTransfer = some dt →
      ∀ e ∈ dt.entries, e.1 ≠ "text/plain") :
    dropHandler type dataTransfer = none := by
  match dataTransfer with
  | none => rfl
  | some dt =>
    have hfind : dt.entries.find? (fun e => e.1 = "text/plain") = none := by
      rw [List.find?_eq_none]
      intro e he
      simpa using h dt rfl e he
    simp [dropHandler, DataTransfer.getData, hfind]

theorem drop_rejects_unrecognized_witness :
    dropHandler ProjectStatus.finished
      (some { entries := [("text/html", "0.123")] }) = none :=
  drop_rejects_unrecognized ProjectStatus.finished
    (some { entries := [("text/html", "0.123")] })
    (by
      intro dt hdt e he
      cases hdt
      simp at he
      simp [he])

/-- Splits a project list at the first element carrying a given id. -/
theorem exists_first_match (ps : List Project) (projectId : String)
    (h : projectId ∈ ps.map Project.id) :
    ∃ l1 p l2, ps = l1 ++ p :: l2 ∧ p.id = projectId ∧
      ∀ q ∈ l1, q.id ≠ projectId := by
  induction ps with
  | nil => simp at h
  | cons a rest ih =>
    by_cases ha : a.id = projectId
    · exact ⟨[], a, rest, rfl, ha, by simp⟩
    · have h1 : projectId ∈ rest.map Project.id := by
        rcases List.mem_map.mp h with ⟨q, hq, hqid⟩
        rcases List.mem_cons.mp hq with rfl | hq1
        · exact absurd hqid ha
        · exact List.mem_map.mpr ⟨q, hq1, hqid⟩
      obtain ⟨l1, p, l2, e, hp, hq⟩ := ih h1
      refine ⟨a :: l1, p, l2, by simp [e], hp, ?_⟩
      intro q hq1
      rcases List.mem_cons.mp hq1 with rfl | hq2
      · exact ha
      · exact hq q hq2

/-- Like `Array.prototype.find`, `List.find?` returns the first match. -/
theorem find?_first_match (l1 : List Project) (p : Project)
    (l2 : List Project) (projectId : String) (hp : p.id = projectId)
    (hq : ∀ q ∈ l1, q.id ≠ projectId) :
    (l1 ++ p :: l2).find? (fun prj => prj.id = projectId) = some p := by
  induction l1 with
  | nil => simp [List.find?_cons, hp]
  | cons a rest ih =>
    have ha : a.id ≠ projectId := hq a (List.mem_cons_self a rest)
    simp only [List.cons_append, List.find?_cons, ha, decide_eq_true_eq,
      if_neg]
    simpa [ha] using ih (fun q h1 => hq q (List.mem_cons_of_mem a h1))

/-- The in-place status write hits exactly the first match. -/
theorem setStatusFirst_decomp (l1 : List Project) (p : Project)
    (l2 : List Project) (projectId : String) (newStatus : ProjectStatus)
    (hp : p.id = projectId) (hq : ∀ q ∈ l1, q.id ≠ projectId) :
    setStatusFirst (l1 ++ p :: l2) projectId newStatus
      = l1 ++ { p with status := newStatus } :: l2 := by
  induction l1 with
  | nil => simp [setStatusFirst, hp]
  | cons a rest ih =>
    have ha : a.id ≠ projectId := hq a (List.mem_cons_self a rest)
    have ih1 := ih (fun q h1 => hq q (List.mem_cons_of_mem a h1))
    simp [setStatusFirst, ha, ih1]

/-- Evaluates `moveProject` on a project array split at the first match. -/
theorem moveProject_eq_of_decomp {L : Type} (s : ProjectState L)
    (l1 : List Project) (p : Project) (l2 : List Project)
    (projectId : String) (newStatus : ProjectStatus)
    (e : s.projects = l1 ++ p :: l2) (hp : p.id = projectId)
    (hq : ∀ q ∈ l1, q.id ≠ projectId) :
    s.moveProject projectId newStatus = some
      ({ s with projects := l1 ++ { p with status := newStatus } :: l2 },
        ProjectState.updateListeners
          { s with
            projects := l1 ++ { p with status := newStatus } :: l2 }) := by
  rw [ProjectState.moveProject, e, find?_first_match l1 p l2 projectId hp hq]
  simp [setStatusFirst_decomp l1 p l2 projectId newStatus hp hq]

/-- Runs `moveProject` on a present id: the result, spelled out through the
first-match decomposition of the project array. -/
theorem moveProject_found {L : Type} (s : ProjectState L)
    (projectId : String) (newStatus : ProjectStatus)
    (h : projectId ∈ s.projects.map Project.id) :
    ∃ l1 p l2, s.projects = l1 ++ p :: l2 ∧ p.id = projectId ∧
      (∀ q ∈ l1, q.id ≠ projectId) ∧
      s.moveProject projectId newStatus = some
        ({ s with projects := l1 ++ { p with status := newStatus } :: l2 },
          ProjectState.updateListeners
            { s with
              projects := l1 ++ { p with status := newStatus } :: l2 }) := by
  obtain ⟨l1, p, l2, e, hp, hq⟩ := exists_first_match s.projects projectId h
  exact ⟨l1, p, l2, e, hp, hq,
    moveProject_eq_of_decomp s l1 p l2 projectId newStatus e hp hq⟩

/-- C4: `moveProject` with an absent id dies on the non-null assertion
before any mutation or notification: no state is produced and no listener
event happens. -/
theorem move_missing_id {L : Type} (s : ProjectState L)
    (projectId : String) (newStatus : ProjectStatus)
    (h : projectId ∉ s.projects.map Project.id) :
    s.moveProject projectId newStatus = none := by
  have hfind : s.projects.find? (fun prj => prj.id = projectId) = none := by
    rw [List.find?_eq_none]
    intro q hqmem
    simp only [decide_eq_true_eq]
    intro hqid
    exact h (List.mem_map.mpr ⟨q, hqmem, hqid⟩)
  simp [ProjectState.moveProject, hfind]

theorem move_missing_id_witness :
    ProjectState.moveProject
      { listeners := [(0 : Nat)], projects := [Project.new "A" "t" "d" 1] }
      "unknown-id" ProjectStatus.finished = none :=
  move_missing_id
    { listeners := [(0 : Nat)], projects := [Project.new "A" "t" "d" 1] }
    "unknown-id" ProjectStatus.finished (by decide)

/-- A concrete registry with two numbered listeners and one active project,
used to instantiate the universally quantified claims. -/
def sampleState : ProjectState Nat :=
  { listeners := [0, 1], projects := [Project.new "X" "t" "d" 1] }

/-- A concrete registry with two active projects. -/
def twoState : ProjectState Nat :=
  { listeners := [0],
    projects := [Project.new "A" "ta" "da" 1, Project.new "B" "tb" "db" 2] }

/-- The listener column of a notification pass is the listener array
itself. -/
theorem updateListeners_fst {L : Type} (s : ProjectState L) :
    s.updateListeners.map Prod.fst = s.listeners := by
  rw [ProjectState.updateListeners, List.map_map]
  have e : (Prod.fst ∘ fun fn => ((fn, s.projects) : L × List Project)) = id :=
    funext (fun _ => rfl)
  rw [e, List.map_id]

/-- C2: on `addProject`, and on `moveProject` with a present id, every
previously registered listener receives exactly one event, in registration
order, carrying the post-mutation project sequence. -/
theorem notify_all_in_order {L : Type} (s : ProjectState L)
    (rid title description : String) (people : Int)
    (projectId : String) (newStatus : ProjectStatus) :
    (((s.addProject rid title description people).2.1).map Prod.fst
        = s.listeners ∧
      ∀ e ∈ (s.addProject rid title description people).2.1,
        e.2 = (s.addProject rid title description people).1.projects) ∧
    (projectId ∈ s.projects.map Project.id →
      ∃ s1 tr, s.moveProject projectId newStatus = some (s1, tr) ∧
        tr.map Prod.fst = s.listeners ∧ ∀ e ∈ tr, e.2 = s1.projects) := by
  constructor
  · constructor
    · exact updateListeners_fst
        { s with projects := s.projects ++ [Project.new rid title description people] }
    · intro e he
      simp only [ProjectState.addProject, ProjectState.updateListeners] at he
      rcases List.mem_map.mp he with ⟨fn, hfn, rfl⟩
      rfl
  · intro h
    obtain ⟨l1, p, l2, e, hp, hq, hmv⟩ :=
      moveProject_found s projectId newStatus h
    refine ⟨_, _, hmv, ?_, ?_⟩
    · exact updateListeners_fst _
    · intro ev hev
      simp only [ProjectState.updateListeners] at hev
      rcases List.mem_map.mp hev with ⟨fn, hfn, rfl⟩
      rfl

theorem notify_all_in_order_witness :
    ∃ s1 tr,
      sampleState.moveProject "X" ProjectStatus.finished = some (s1, tr) ∧
      tr.map Prod.fst = sampleState.listeners ∧
      ∀ e ∈ tr, e.2 = s1.projects :=
  (notify_all_in_order sampleState "0.5" "u" "v" 2 "X"
    ProjectStatus.finished).2 (by decide)

/-- C5: moving a present id rewrites only the status of the first item
carrying that id; its other fields, every other item, the order of the
sequence and the listener list are untouched. -/
theorem move_frame {L : Type} (s : ProjectState L) (projectId : String)
    (newStatus : ProjectStatus)
    (h : projectId ∈ s.projects.map Project.id) :
    ∃ s1 tr l1 p l2, s.moveProject projectId newStatus = some (s1, tr) ∧
      s.projects = l1 ++ p :: l2 ∧ p.id = projectId ∧
      (∀ q ∈ l1, q.id ≠ projectId) ∧
      s1.projects = l1 ++ { p with status := newStatus } :: l2 ∧
      s1.listeners = s.listeners := by
  obtain ⟨l1, p, l2, e, hp, hq, hmv⟩ :=
    moveProject_found s projectId newStatus h
  exact ⟨_, _, l1, p, l2, hmv, e, hp, hq, rfl, rfl⟩

theorem move_frame_witness :
    ∃ s1 tr l1 p l2,
      twoState.moveProject "B" ProjectStatus.finished = some (s1, tr) ∧
      twoState.projects = l1 ++ p :: l2 ∧ p.id = "B" ∧
      (∀ q ∈ l1, q.id ≠ "B") ∧
      s1.projects = l1 ++ { p with status := ProjectStatus.finished } :: l2 ∧
      s1.listeners = twoState.listeners :=
  move_frame twoState "B" ProjectStatus.finished (by decide)

/-- C8: a second `moveProject` with the same id and status finds the item
already carrying the target status and rewrites it to the same value: the
final registry state equals the state after one call, the status of the item is
the target status, and each call fires one event per listener. -/
theorem move_idempotent {L : Type} (s : ProjectState L) (projectId : String)
    (newStatus : ProjectStatus)
    (h : projectId ∈ s.projects.map Project.id) :
    ∃ s1 tr1 tr2, s.moveProject projectId newStatus = some (s1, tr1) ∧
      s1.moveProject projectId newStatus = some (s1, tr2) ∧
      (∃ q ∈ s1.projects, q.id = projectId ∧ q.status = newStatus) ∧
      tr1.map Prod.fst = s.listeners ∧ tr2.map Prod.fst = s.listeners := by
  obtain ⟨l1, p, l2, e, hp, hq, hmv⟩ :=
    moveProject_found s projectId newStatus h
  have hp1 : ({ p with status := newStatus } : Project).id = projectId := hp
  have hmv2 := moveProject_eq_of_decomp
    { s with projects := l1 ++ { p with status := newStatus } :: l2 }
    l1 { p with status := newStatus } l2 projectId newStatus rfl hp1 hq
  refine ⟨{ s with projects := l1 ++ { p with status := newStatus } :: l2 },
    _, _, hmv, hmv2, ?_, ?_, ?_⟩
  · exact ⟨{ p with status := newStatus },
      List.mem_append_right l1 (List.mem_cons_self _ _), hp, rfl⟩
  · exact updateListeners_fst _
  · exact updateListeners_fst _

theorem move_idempotent_witness :
    ∃ s1 tr1 tr2,
      sampleState.moveProject "X" ProjectStatus.finished = some (s1, tr1) ∧
      s1.moveProject "X" ProjectStatus.finished = some (s1, tr2) ∧
      (∃ q ∈ s1.projects, q.id = "X" ∧ q.status = ProjectStatus.finished) ∧
      tr1.map Prod.fst = sampleState.listeners ∧
      tr2.map Prod.fst = sampleState.listeners :=
  move_idempotent sampleState "X" ProjectStatus.finished (by decide)

/-- The id column of a registry after a batch of `addProject` calls: the
previous ids followed by the random draws, in call order. -/
theorem runAdds_ids {L : Type} (cs : List AddCall) (s : ProjectState L) :
    (runAdds s cs).projects.map Project.id
      = s.projects.map Project.id ++ cs.map AddCall.rid := by
  induction cs generalizing s with
  | nil => simp [runAdds]
  | cons c cs ih =>
    simp [runAdds, ih, ProjectState.addProject, Project.new]

/-- C1 counterexample: ids come straight from `Math.random().toString()`,
so a run in which the random draw repeats assigns the same id twice. -/
theorem add_duplicate_id_counterexample :
    ¬ ((runAdds (ProjectState.empty : ProjectState Unit)
        [{ rid := "0.5", title := "a", description := "b", people := 1 },
         { rid := "0.5", title := "c", description := "d", people := 2 }]).projects.map
        Project.id).Nodup := by
  decide

/-- C1 amended: ids assigned by a run of `addProject` calls are pairwise
distinct provided the values drawn from `Math.random().toString()` are
pairwise distinct. -/
theorem add_ids_unique_of_distinct_draws (cs : List AddCall)
    (h : (cs.map AddCall.rid).Nodup) :
    ((runAdds (ProjectState.empty : ProjectState Unit) cs).projects.map
      Project.id).Nodup := by
  rw [runAdds_ids]
  simpa using h

theorem add_ids_unique_witness :
    ((runAdds (ProjectState.empty : ProjectState Unit)
        [{ rid := "0.1", title := "a", description := "b", people := 1 },
         { rid := "0.2", title := "c", description := "d", people := 2 }]).projects.map
      Project.id).Nodup :=
  add_ids_unique_of_distinct_draws _ (by decide)

/-- C3 counterexample: `addProject` has no return statement, so at this
concrete call its value is `undefined` (`none`), not the id `"0.5"` of the
new item. -/
theorem add_returns_no_id_counterexample :
    ((ProjectState.empty : ProjectState Unit).addProject "0.5" "Build API"
        "Design the REST API" 3).2.2 = none ∧
      ((ProjectState.empty : ProjectState Unit).addProject "0.5" "Build API"
        "Design the REST API" 3).2.2 ≠ some "0.5" := by
  exact ⟨rfl, by simp [ProjectState.addProject]⟩

/-- C3 amended: `addProject` constructs the new item with status `Active`,
appends it at the end of the sequence leaving the existing items and the
listener list unchanged, and returns no value (`undefined`), not the id of
the new item. -/
theorem add_appends_active {L : Type} (s : ProjectState L)
    (rid title description : String) (people : Int) :
    (s.addProject rid title description people).1.projects
        = s.projects ++ [Project.new rid title description people] ∧
      (Project.new rid title description people).status
        = ProjectStatus.active ∧
      (s.addProject rid title description people).1.listeners
        = s.listeners ∧
      (s.addProject rid title description people).2.2 = none :=
  ⟨rfl, rfl, rfl, rfl⟩
